import Mathlib

/-!
Verification of the containerd-shim-spin engine core
(src/containerd-shim-spin/src/engine.rs) against its design document.

The engine core is shallowly embedded:
* byte sequences are modelled as List Nat;
* the external wasmtime compiler engine is a record of the three
  operations the core uses (detect_precompiled, precompile_component,
  precompile_compatibility_hash), plus the external spin_componentize
  adapter, all black boxes;
* fallible Rust code returning anyhow::Result is modelled with Except
  String;
* helpers of this repository that live outside the analysed engine.rs
  (constants.rs, utils.rs, trigger.rs) are modelled from the design
  document and marked as such in their doc comments.
-/

/-- An OCI descriptor: media-type string, size, content digest
(oci_spec::image::Descriptor, restricted to the fields the engine reads). -/
structure Descriptor where
  mediaType : String
  size : Nat
  digest : String
deriving DecidableEq, Repr

/-- containerd_shim_wasm::sandbox::WasmLayer: opaque layer bytes plus the
OCI descriptor. -/
structure WasmLayer where
  layer : List Nat
  config : Descriptor
deriving DecidableEq, Repr

/-- Modelled from the spec: the bare-Wasm OCI layer media type constant
(constants::OCI_LAYER_MEDIA_TYPE_WASM, defined in constants.rs which is not
among the analysed sources). Its exact text is irrelevant to the theorems;
only its identity as the bare-Wasm marker matters. -/
def OCI_LAYER_MEDIA_TYPE_WASM : String := "application/vnd.wasm.content.layer.v1+wasm"

/-- Modelled from the spec: utils::is_wasm_content (utils.rs is not among the
analysed sources). Per the Layer Classifier design, a layer is Wasm content
exactly when its media type is the bare-Wasm media type; such a layer is
returned unchanged, any other layer yields none. -/
def is_wasm_content (layer : WasmLayer) : Option WasmLayer :=
  if layer.config.mediaType = OCI_LAYER_MEDIA_TYPE_WASM then some layer else none

/-- Black-box model of the external wasmtime::Engine as used by the core:
detect_precompiled (the source only tests is_some of its result, so it is
a Bool here), precompile_component, and the opaque compatibility hash,
modelled as the byte stream the hash feeds into the hasher. -/
structure CompilerEngine where
  detect_precompiled : List Nat → Bool
  precompile_component : List Nat → Except String (List Nat)
  precompile_compatibility_hash : List Nat

/-- Sequential collection of per-element results, short-circuiting at the
first error: the semantics of Rust iterator map + collect into Result of Vec,
used by SpinEngine::precompile. -/
def collect_results (f : α → Except String β) : List α → Except String (List β)
  | [] => .ok []
  | x :: xs =>
    match f x with
    | .error e => .error e
    | .ok y =>
      match collect_results f xs with
      | .error e => .error e
      | .ok ys => .ok (y :: ys)

/-- The per-layer body of SpinEngine::precompile (engine.rs lines 97-118):
non-Wasm layers map to none; a Wasm layer already detected as precompiled is
passed through unchanged; otherwise it is componentized if necessary and then
precompiled. componentize is the external spin_componentize adapter, passed
as a black-box parameter. -/
def precompile_layer (componentize : List Nat → Except String (List Nat))
    (e : CompilerEngine) (layer : WasmLayer) : Except String (Option (List Nat)) :=
  match is_wasm_content layer with
  | some wasm_layer =>
    if e.detect_precompiled wasm_layer.layer then
      .ok (some wasm_layer.layer)
    else
      match componentize wasm_layer.layer with
      | .error err => .error err
      | .ok component =>
        match e.precompile_component component with
        | .error err => .error err
        | .ok precompiled => .ok (some precompiled)
  | none => .ok none

/-- SpinEngine::precompile (engine.rs lines 93-121): map precompile_layer
over the layer list and collect, short-circuiting at the first error. -/
def precompile (componentize : List Nat → Except String (List Nat))
    (e : CompilerEngine) (layers : List WasmLayer) :
    Except String (List (Option (List Nat))) :=
  collect_results (precompile_layer componentize e) layers

lemma collect_results_length {f : α → Except String β} {xs : List α} {ys : List β}
    (h : collect_results f xs = .ok ys) : ys.length = xs.length := by
  induction xs generalizing ys with
  | nil => simp [collect_results] at h; simp [← h]
  | cons x xs ih =>
    simp only [collect_results] at h
    cases hx : f x with
    | error e => rw [hx] at h; exact absurd h (by simp)
    | ok y =>
      rw [hx] at h
      cases hxs : collect_results f xs with
      | error e => rw [hxs] at h; exact absurd h (by simp)
      | ok ys2 =>
        rw [hxs] at h
        cases h
        simp [ih hxs]

lemma collect_results_get {f : α → Except String β} {xs : List α} {ys : List β}
    (h : collect_results f xs = .ok ys) :
    ∀ (i : Nat) (x : α), xs[i]? = some x → ∃ y, ys[i]? = some y ∧ f x = .ok y := by
  induction xs generalizing ys with
  | nil => intro i x hx; simp at hx
  | cons a xs ih =>
    intro i x hx
    simp only [collect_results] at h
    cases ha : f a with
    | error e => rw [ha] at h; exact absurd h (by simp)
    | ok y =>
      rw [ha] at h
      cases hxs : collect_results f xs with
      | error e => rw [hxs] at h; exact absurd h (by simp)
      | ok ys2 =>
        rw [hxs] at h
        cases h
        cases i with
        | zero =>
          simp at hx
          exact ⟨y, by simp, hx ▸ ha⟩
        | succ i =>
          simp at hx ⊢
          exact ih hxs i x hx

lemma collect_results_error_of {f : α → Except String β} {xs : List α} {i : Nat}
    {x : α} {e : String}
    (hx : xs[i]? = some x) (hfx : f x = .error e)
    (hok : ∀ (j : Nat) (z : α), j < i → xs[j]? = some z → ∃ v, f z = .ok v) :
    collect_results f xs = .error e := by
  induction xs generalizing i with
  | nil => simp at hx
  | cons a xs ih =>
    cases i with
    | zero =>
      simp at hx
      simp [collect_results, hx ▸ hfx]
    | succ i =>
      simp at hx
      obtain ⟨v, hv⟩ := hok 0 a (Nat.succ_pos i) (by simp)
      have hrest : collect_results f xs = .error e :=
        ih hx (fun j z hj hz => hok (j + 1) z (Nat.succ_lt_succ hj) (by simpa using hz))
      simp [collect_results, hv, hrest]

lemma collect_results_mem {f : α → Except String β} {xs : List α} {ys : List β}
    (h : collect_results f xs = .ok ys) :
    ∀ y ∈ ys, ∃ x ∈ xs, f x = .ok y := by
  induction xs generalizing ys with
  | nil =>
    simp [collect_results] at h
    subst h; simp
  | cons a xs ih =>
    intro y hy
    simp only [collect_results] at h
    cases ha : f a with
    | error e => rw [ha] at h; exact absurd h (by simp)
    | ok z =>
      rw [ha] at h
      cases hxs : collect_results f xs with
      | error e => rw [hxs] at h; exact absurd h (by simp)
      | ok ys2 =>
        rw [hxs] at h
        cases h
        rcases List.mem_cons.mp hy with hy | hy
        · exact ⟨a, by simp, hy ▸ ha⟩
        · obtain ⟨x, hx, hfx⟩ := ih hxs y hy
          exact ⟨x, by simp [hx], hfx⟩

lemma collect_results_all_ok {f : α → Except String β} {g : α → β} {xs : List α}
    (h : ∀ x ∈ xs, f x = .ok (g x)) : collect_results f xs = .ok (xs.map g) := by
  induction xs with
  | nil => simp [collect_results]
  | cons a xs ih =>
    have ha : f a = .ok (g a) := h a (by simp)
    have hxs : collect_results f xs = .ok (xs.map g) :=
      ih (fun x hx => h x (by simp [hx]))
    simp [collect_results, ha, hxs]

/-- A byte sequence wrapped as a bare-Wasm OCI layer, as in the idempotence
scenario where precompiled outputs are fed back in as Wasm layers. -/
def as_wasm_layer (bs : List Nat) : WasmLayer :=
  ⟨bs, ⟨OCI_LAYER_MEDIA_TYPE_WASM, bs.length, "sha256:feedback"⟩⟩

/-- Concrete componentize adapter used by witnesses: succeeds unchanged. -/
def test_componentize : List Nat → Except String (List Nat) := fun bs => .ok bs

/-- Concrete compiler engine used by witnesses: the byte sequence 7 counts as
already precompiled, compilation prepends a 0 byte. -/
def test_engine : CompilerEngine where
  detect_precompiled := fun bs => decide (bs = [7])
  precompile_component := fun bs => .ok (0 :: bs)
  precompile_compatibility_hash := [1]

/-- Concrete compiler engine used by witnesses whose compilation always
fails. -/
def test_engine_fail : CompilerEngine where
  detect_precompiled := fun _ => false
  precompile_component := fun _ => .error "compile failed"
  precompile_compatibility_hash := [1]

/-- Concrete mixed layer list used by witnesses: an already-precompiled Wasm
layer, a Wasm layer needing compilation, and a non-Wasm data layer. -/
def test_layers : List WasmLayer :=
  [as_wasm_layer [7], as_wasm_layer [1],
   ⟨[], ⟨"application/vnd.spin.application.v1+data", 0, "sha256:data"⟩⟩]

/-- The output test_engine produces for test_layers. -/
def test_out : List (Option (List Nat)) := [some [7], some [0, 1], none]

/-- C1: precompile preserves the length of the layer list; every slot whose
layer is not Wasm content comes out absent; the empty list yields the empty
result. -/
theorem precompile_length_and_nonwasm_slots
    (componentize : List Nat → Except String (List Nat)) (e : CompilerEngine)
    (layers : List WasmLayer) (out : List (Option (List Nat)))
    (h : precompile componentize e layers = .ok out) :
    out.length = layers.length ∧
    (∀ (i : Nat) (l : WasmLayer), layers[i]? = some l →
       is_wasm_content l = none → out[i]? = some none) ∧
    precompile componentize e [] = .ok [] := by
  refine ⟨collect_results_length h, ?_, rfl⟩
  intro i l hl hw
  obtain ⟨y, hy, hfy⟩ := collect_results_get h i l hl
  rw [precompile_layer, hw] at hfy
  cases hfy
  exact hy

/-- Witness for C1 at the concrete mixed layer list. -/
theorem precompile_length_and_nonwasm_slots_witness :
    precompile test_componentize test_engine test_layers = .ok test_out ∧
    test_out.length = test_layers.length ∧
    (∀ (i : Nat) (l : WasmLayer), test_layers[i]? = some l →
       is_wasm_content l = none → test_out[i]? = some none) := by
  have h : precompile test_componentize test_engine test_layers = .ok test_out := by rfl
  exact ⟨h, (precompile_length_and_nonwasm_slots _ _ _ _ h).1,
    (precompile_length_and_nonwasm_slots _ _ _ _ h).2.1⟩

lemma precompile_layer_wasm (componentize : List Nat → Except String (List Nat))
    (e : CompilerEngine) {l wl : WasmLayer} (hw : is_wasm_content l = some wl) :
    precompile_layer componentize e l =
      if e.detect_precompiled wl.layer then .ok (some wl.layer)
      else
        match componentize wl.layer with
        | .error err => .error err
        | .ok component =>
          match e.precompile_component component with
          | .error err => .error err
          | .ok precompiled => .ok (some precompiled) := by
  rw [precompile_layer, hw]

/-- C2: a Wasm slot detected as already precompiled is passed through
byte-identical at its position; otherwise it is componentized, then
precompiled, and the slot holds the precompiled artifact. -/
theorem precompile_wasm_slot_behaviour
    (componentize : List Nat → Except String (List Nat)) (e : CompilerEngine)
    (layers : List WasmLayer) (out : List (Option (List Nat)))
    (i : Nat) (l wl : WasmLayer)
    (h : precompile componentize e layers = .ok out)
    (hl : layers[i]? = some l)
    (hw : is_wasm_content l = some wl) :
    (e.detect_precompiled wl.layer = true → out[i]? = some (some wl.layer)) ∧
    (e.detect_precompiled wl.layer = false →
       ∃ c p, componentize wl.layer = .ok c ∧ e.precompile_component c = .ok p ∧
         out[i]? = some (some p)) := by
  obtain ⟨y, hy, hfy⟩ := collect_results_get h i l hl
  rw [precompile_layer_wasm componentize e hw] at hfy
  constructor
  · intro hdet
    rw [hdet] at hfy
    simp only [if_true] at hfy
    cases hfy
    exact hy
  · intro hdet
    rw [hdet] at hfy
    simp only [Bool.false_eq_true, if_false] at hfy
    cases hc : componentize wl.layer with
    | error err => simp [hc] at hfy
    | ok c =>
      simp only [hc] at hfy
      cases hp : e.precompile_component c with
      | error err => simp [hp] at hfy
      | ok p =>
        simp only [hp] at hfy
        cases hfy
        exact ⟨c, p, rfl, hp, hy⟩

/-- Witness for C2: slot 0 of the concrete list is passed through, slot 1 is
componentized and precompiled. -/
theorem precompile_wasm_slot_behaviour_witness :
    test_out[0]? = some (some [7]) ∧
    (∃ c p, test_componentize [1] = .ok c ∧
       test_engine.precompile_component c = .ok p ∧ test_out[1]? = some (some p)) := by
  have h : precompile test_componentize test_engine test_layers = .ok test_out := by rfl
  constructor
  · exact (precompile_wasm_slot_behaviour test_componentize test_engine test_layers
      test_out 0 (as_wasm_layer [7]) (as_wasm_layer [7]) h (by rfl) (by rfl)).1 (by decide)
  · exact (precompile_wasm_slot_behaviour test_componentize test_engine test_layers
      test_out 1 (as_wasm_layer [1]) (as_wasm_layer [1]) h (by rfl) (by rfl)).2 (by decide)

/-- C6: if one slot of the input fails (componentization or compilation
errors) while all earlier slots succeed, the whole precompile call returns
that underlying error and no output list. -/
theorem precompile_slot_failure_aborts
    (componentize : List Nat → Except String (List Nat)) (e : CompilerEngine)
    (layers : List WasmLayer) (i : Nat) (l : WasmLayer) (err : String)
    (hl : layers[i]? = some l)
    (hfail : precompile_layer componentize e l = .error err)
    (hok : ∀ (j : Nat) (z : WasmLayer), j < i → layers[j]? = some z →
             ∃ v, precompile_layer componentize e z = .ok v) :
    precompile componentize e layers = .error err := by
  exact collect_results_error_of hl hfail hok

/-- Witness for C6: a single-layer list whose compilation fails makes the
whole call fail with the compiler error. -/
theorem precompile_slot_failure_aborts_witness :
    precompile test_componentize test_engine_fail [as_wasm_layer [1]] =
      .error "compile failed" := by
  exact precompile_slot_failure_aborts test_componentize test_engine_fail
    [as_wasm_layer [1]] 0 (as_wasm_layer [1]) "compile failed" (by rfl) (by rfl)
    (fun j z hj _ => absurd hj (Nat.not_lt_zero j))

lemma is_wasm_content_as_wasm_layer (bs : List Nat) :
    is_wasm_content (as_wasm_layer bs) = some (as_wasm_layer bs) := by
  simp [is_wasm_content, as_wasm_layer]

lemma precompile_layer_ok_some_detect
    {componentize : List Nat → Except String (List Nat)} {e : CompilerEngine}
    {l : WasmLayer} {b : List Nat}
    (hdet : ∀ c p, e.precompile_component c = .ok p → e.detect_precompiled p = true)
    (h : precompile_layer componentize e l = .ok (some b)) :
    e.detect_precompiled b = true := by
  cases hw : is_wasm_content l with
  | none => rw [precompile_layer, hw] at h; simp at h
  | some wl =>
    rw [precompile_layer_wasm componentize e hw] at h
    by_cases hd : e.detect_precompiled wl.layer
    · rw [if_pos hd] at h
      have hb : wl.layer = b := by simpa using h
      exact hb ▸ hd
    · rw [if_neg hd] at h
      cases hc : componentize wl.layer with
      | error err => simp [hc] at h
      | ok c =>
        simp only [hc] at h
        cases hp : e.precompile_component c with
        | error err => simp [hp] at h
        | ok p =>
          simp only [hp] at h
          have hb : p = b := by simpa using h
          exact hb ▸ hdet c p hp

/-- C9: under the contract that the compiler engine detects its own
precompiled output, feeding the present outputs of one precompile call back
in as Wasm layers makes the next call return them byte-identical, so outputs
are byte-equal from the second application onward. -/
theorem precompile_idempotent
    (componentize : List Nat → Except String (List Nat)) (e : CompilerEngine)
    (layers : List WasmLayer) (out : List (Option (List Nat)))
    (hdet : ∀ c p, e.precompile_component c = .ok p → e.detect_precompiled p = true)
    (h : precompile componentize e layers = .ok out) :
    precompile componentize e ((out.filterMap id).map as_wasm_layer) =
      .ok ((out.filterMap id).map some) := by
  have hall : ∀ b ∈ out.filterMap id, e.detect_precompiled b = true := by
    intro b hb
    rw [List.mem_filterMap] at hb
    obtain ⟨o, ho, hob⟩ := hb
    rw [id_eq] at hob
    subst hob
    obtain ⟨x, hx, hfx⟩ := collect_results_mem h _ ho
    exact precompile_layer_ok_some_detect hdet hfx
  have hslots : ∀ l ∈ (out.filterMap id).map as_wasm_layer,
      precompile_layer componentize e l = .ok (some l.layer) := by
    intro l hl
    rw [List.mem_map] at hl
    obtain ⟨b, hb, rfl⟩ := hl
    rw [precompile_layer_wasm componentize e (is_wasm_content_as_wasm_layer b)]
    have hd : e.detect_precompiled (as_wasm_layer b).layer = true := hall b hb
    rw [if_pos hd]
  have hres := collect_results_all_ok (g := fun (l : WasmLayer) => some l.layer) hslots
  rw [precompile, hres, List.map_map]
  rfl

/-- Concrete compiler engine used by witnesses that detects its own output:
compiled blobs start with a 0 byte, which is exactly what detection tests. -/
def test_engine_idem : CompilerEngine where
  detect_precompiled := fun bs => decide (bs.head? = some 0)
  precompile_component := fun bs => .ok (0 :: bs)
  precompile_compatibility_hash := [1]

/-- A non-Wasm data layer used by witnesses. -/
def test_data_layer : WasmLayer :=
  ⟨[], ⟨"application/vnd.spin.application.v1+data", 0, "sha256:data"⟩⟩

/-- Witness for C9 at a two-layer input (one raw Wasm layer, one data
layer). -/
theorem precompile_idempotent_witness :
    precompile test_componentize test_engine_idem
        ((([some [0, 7], none] : List (Option (List Nat))).filterMap id).map as_wasm_layer) =
      .ok ((([some [0, 7], none] : List (Option (List Nat))).filterMap id).map some) := by
  have hdet : ∀ c p, test_engine_idem.precompile_component c = .ok p →
      test_engine_idem.detect_precompiled p = true := by
    intro c p hp
    obtain rfl : (0 :: c) = p := by simpa [test_engine_idem] using hp
    simp [test_engine_idem]
  have h : precompile test_componentize test_engine_idem
      [as_wasm_layer [7], test_data_layer] = .ok [some [0, 7], none] := by rfl
  exact precompile_idempotent test_componentize test_engine_idem
    [as_wasm_layer [7], test_data_layer] [some [0, 7], none] hdet h

/-- Black-box model of std's DefaultHasher as the core uses it: a single
write of the compatibility-hash data followed by finish, i.e. an unspecified
function from byte sequences to 64-bit values. -/
structure DefaultHasherModel where
  finish : List Nat → Nat
  finish_lt : ∀ bs, finish bs < 2 ^ 64

/-- SpinEngine::can_precompile (engine.rs lines 123-129): hash the compiler
compatibility hash with the standard hasher and render the 64-bit result in
decimal; unconditionally some. -/
def can_precompile (hasher : DefaultHasherModel) (e : CompilerEngine) : Option String :=
  some (Nat.repr (hasher.finish e.precompile_compatibility_hash))

/-- A 64-bit hasher model that collapses everything: witnesses that a 64-bit
hasher need not be injective. -/
def collide_hasher : DefaultHasherModel where
  finish := fun _ => 0
  finish_lt := fun _ => by norm_num

/-- Engine fixture with compatibility-hash data 0. -/
def engine_a : CompilerEngine := ⟨fun _ => false, fun bs => .ok bs, [0]⟩

/-- Engine fixture with compatibility-hash data 1. -/
def engine_b : CompilerEngine := ⟨fun _ => false, fun bs => .ok bs, [1]⟩

/-- Engine fixture with the same compatibility-hash data as engine_a but
different compilation behaviour. -/
def engine_a_twin : CompilerEngine := ⟨fun _ => true, fun _ => .error "x", [0]⟩

/-- C8 counterexample: two engines whose compatibility hashes differ can
still return byte-equal fingerprints, because the fingerprint is a 64-bit
hash of the compatibility hash and the hasher may collide. -/
theorem can_precompile_not_injective :
    engine_a.precompile_compatibility_hash ≠ engine_b.precompile_compatibility_hash ∧
    can_precompile collide_hasher engine_a = can_precompile collide_hasher engine_b := by
  exact ⟨by decide, rfl⟩

/-- C8 (amended): the fingerprint is a pure function of the compatibility
hash — engines with identical compatibility hashes return byte-equal
fingerprint strings, whatever the hasher does. Distinctness for differing
compatibility hashes is not guaranteed (see the counterexample). -/
theorem can_precompile_deterministic (hasher : DefaultHasherModel)
    (e1 e2 : CompilerEngine)
    (h : e1.precompile_compatibility_hash = e2.precompile_compatibility_hash) :
    can_precompile hasher e1 = can_precompile hasher e2 := by
  rw [can_precompile, can_precompile, h]

/-- Witness for the amended C8: engine_a and engine_a_twin share the
compatibility hash and get equal fingerprints. -/
theorem can_precompile_deterministic_witness :
    engine_a.precompile_compatibility_hash = engine_a_twin.precompile_compatibility_hash ∧
    can_precompile collide_hasher engine_a = can_precompile collide_hasher engine_a_twin :=
  ⟨rfl, can_precompile_deterministic collide_hasher engine_a engine_a_twin rfl⟩

/-- C10: can_precompile always returns some string, namely the decimal
rendering of the 64-bit hash of the compatibility hash. -/
theorem can_precompile_always_some (hasher : DefaultHasherModel) (e : CompilerEngine) :
    ∃ s, can_precompile hasher e = some s ∧
      s = Nat.repr (hasher.finish e.precompile_compatibility_hash) ∧
      hasher.finish e.precompile_compatibility_hash < 2 ^ 64 :=
  ⟨_, rfl, rfl, hasher.finish_lt _⟩

/-- Outcome of driving a cancellable (abortable) future to completion:
either the inner value, or notice of the abort. Models
futures::future::abortable plus Runtime::block_on in run_wasi. -/
inductive AbortableOutcome (α : Type) where
  | completed (a : α)
  | aborted

/-- SpinEngine::run_wasi (engine.rs lines 56-78): redirect stdio, create the
runtime, install the interrupt handler, then block on the abortable pipeline
and translate its outcome: inner success and abort both give exit code 0,
an inner error is propagated. The three setup steps and the pipeline outcome
are black-box parameters. -/
def run_wasi (redirect : Except String Unit) (runtime_new : Except String Unit)
    (set_handler : Except String Unit)
    (pipeline : AbortableOutcome (Except String Unit)) : Except String Int :=
  match redirect with
  | .error e => .error e
  | .ok _ =>
    match runtime_new with
    | .error e => .error ("failed to create runtime: " ++ e)
    | .ok _ =>
      match set_handler with
      | .error e => .error e
      | .ok _ =>
        match pipeline with
        | .completed (.ok _) => .ok 0
        | .completed (.error err) => .error err
        | .aborted => .ok 0

/-- C3: with setup succeeding, run_wasi maps pipeline success to exit code 0,
an inner error to that propagated error, and cancellation through the
interrupt handler to exit code 0 (graceful stop, not an error). -/
theorem run_wasi_outcome_translation
    (redirect runtime_new set_handler : Except String Unit)
    (hr : redirect = .ok ()) (hn : runtime_new = .ok ()) (hs : set_handler = .ok ()) :
    run_wasi redirect runtime_new set_handler (.completed (.ok ())) = .ok 0 ∧
    (∀ err, run_wasi redirect runtime_new set_handler (.completed (.error err)) =
      .error err) ∧
    run_wasi redirect runtime_new set_handler .aborted = .ok 0 := by
  subst hr hn hs
  exact ⟨rfl, fun err => rfl, rfl⟩

/-- Witness for C3 with all setup steps succeeding. -/
theorem run_wasi_outcome_translation_witness :
    run_wasi (.ok ()) (.ok ()) (.ok ()) (.completed (.ok ())) = .ok 0 ∧
    run_wasi (.ok ()) (.ok ()) (.ok ()) (.completed (.error "boom")) = .error "boom" ∧
    run_wasi (.ok ()) (.ok ()) (.ok ()) .aborted = .ok 0 := by
  obtain ⟨h1, h2, h3⟩ :=
    run_wasi_outcome_translation (.ok ()) (.ok ()) (.ok ()) rfl rfl rfl
  exact ⟨h1, h2 "boom", h3⟩

/-- A parsed listen address: host and port. -/
structure Addr where
  host : String
  port : Nat
deriving DecidableEq, Repr

/-- Splits a character list at each colon. -/
def split_colon : List Char → List (List Char)
  | [] => [[]]
  | c :: rest =>
    if c = ':' then [] :: split_colon rest
    else
      match split_colon rest with
      | [] => [[c]]
      | h :: t => (c :: h) :: t

/-- Reads a decimal digit run left to right onto an accumulator. -/
def parse_decimal_core : List Char → Nat → Option Nat
  | [], acc => some acc
  | c :: rest, acc =>
    if c.isDigit then parse_decimal_core rest (acc * 10 + (c.toNat - 48))
    else none

/-- Parses a non-empty all-digit character list as a decimal number. -/
def parse_decimal : List Char → Option Nat
  | [] => none
  | cs => parse_decimal_core cs 0

/-- Modelled from the spec: utils::parse_addr (utils.rs is not among the
analysed sources): parse a listen-address string in host:port form, the
port being a decimal number below 65536. -/
def parse_addr (s : String) : Except String Addr :=
  match split_colon s.data with
  | [host, port] =>
    match parse_decimal port with
    | some p =>
      if p < 65536 then .ok ⟨⟨host⟩, p⟩ else .error ("invalid address: " ++ s)
    | none => .error ("invalid address: " ++ s)
  | _ => .error ("invalid address: " ++ s)

/-- Modelled from the spec: constants::SPIN_HTTP_LISTEN_ADDR_ENV, the name of
the environment variable overriding the HTTP listen address. -/
def SPIN_HTTP_LISTEN_ADDR_ENV : String := "SPIN_HTTP_LISTEN_ADDR"

/-- Modelled from the spec: constants::SPIN_ADDR_DEFAULT, the documented
default HTTP listen address. -/
def SPIN_ADDR_DEFAULT : String := "0.0.0.0:80"

/-- Trigger kind label of the external HttpTrigger executor crate. -/
def HTTP_TRIGGER_TYPE : String := "http"

/-- Trigger kind label of the external RedisTrigger executor crate. -/
def REDIS_TRIGGER_TYPE : String := "redis"

/-- Trigger kind label of the external SqsTrigger executor crate. -/
def SQS_TRIGGER_TYPE : String := "sqs"

/-- Trigger kind label of the external CommandTrigger executor crate. -/
def COMMAND_TRIGGER_TYPE : String := "command"

/-- Trigger kind label of the external MqttTrigger executor crate. -/
def MQTT_TRIGGER_TYPE : String := "mqtt"

/-- The startup arguments run_trigger hands each executor kind: HTTP CliArgs
(address plus TLS material), NoArgs for Redis and SQS, the guest argument
vector for Command, and the non-test flag for MQTT. -/
inductive TriggerArgs where
  | http (address : Addr) (tls_cert : Option String) (tls_key : Option String)
  | noArgs
  | command (guest_args : List String)
  | mqtt (test : Bool)
deriving DecidableEq, Repr

/-- A constructed trigger run future: the kind label it was built for and
the arguments its run call received. -/
structure TriggerFuture where
  trigger_type : String
  args : TriggerArgs
deriving DecidableEq, Repr

/-- A trigger of a locked application, restricted to the kind label, the
only field the trigger path reads. -/
structure LockedTrigger where
  trigger_type : String
deriving DecidableEq, Repr

/-- spin_app::locked::LockedApp, restricted to its trigger list. -/
structure LockedApp where
  triggers : List LockedTrigger
deriving DecidableEq, Repr

/-- The supported trigger kind set of the run_trigger dispatch. -/
def supported_trigger_types : List String :=
  [HTTP_TRIGGER_TYPE, REDIS_TRIGGER_TYPE, SQS_TRIGGER_TYPE,
   COMMAND_TRIGGER_TYPE, MQTT_TRIGGER_TYPE]

/-- Modelled from the spec: trigger::get_supported_triggers (trigger.rs is
not among the analysed sources): collect the distinct trigger kinds declared
by the locked app; an unknown kind is an error naming the kind, an empty
result is an error. -/
def get_supported_triggers (app : LockedApp) : Except String (List String) :=
  match ((app.triggers.map LockedTrigger.trigger_type).dedup).find?
      (fun k => !(supported_trigger_types.contains k)) with
  | some k => .error ("unsupported trigger type: " ++ k)
  | none =>
    if ((app.triggers.map LockedTrigger.trigger_type).dedup).isEmpty then
      .error "no triggers declared"
    else
      .ok ((app.triggers.map LockedTrigger.trigger_type).dedup)

/-- Black-box inputs of run_trigger: the outcome of the per-kind executor
builder (build_trigger in the external trigger crates), the optional value
of SPIN_HTTP_LISTEN_ADDR in the host environment, and the container argument
vector exposed by the runtime context. -/
structure TriggerEnv where
  build_trigger : String → Except String Unit
  env_listen_addr : Option String
  ctx_args : List String

/-- Result of one arm of the run_trigger match: a constructed future, a
propagated builder or address error, or the panic of the catch-all
unreachable arm. -/
inductive BuildOutcome where
  | ok (f : TriggerFuture)
  | error (msg : String)
  | unreachable
deriving DecidableEq, Repr

/-- The Rust question-mark operator on the awaited builder result. -/
def try_build (b : Except String Unit) (f : BuildOutcome) : BuildOutcome :=
  match b with
  | .error e => .error e
  | .ok _ => f

/-- The Rust question-mark operator on the parsed listen address. -/
def try_parse (r : Except String Addr) (f : Addr → BuildOutcome) : BuildOutcome :=
  match r with
  | .error e => .error e
  | .ok a => f a

/-- One arm of the run_trigger dispatch (engine.rs lines 157-201): build the
executor for the kind and obtain its run future with the kind's arguments;
HTTP reads the listen address from the environment, falling back to the
default, and leaves TLS unset; the final arm is the unreachable branch. -/
def build_trigger_future (tenv : TriggerEnv) (trigger_type : String) : BuildOutcome :=
  if trigger_type = HTTP_TRIGGER_TYPE then
    try_build (tenv.build_trigger trigger_type)
      (try_parse (parse_addr ((tenv.env_listen_addr).getD SPIN_ADDR_DEFAULT))
        (fun address => .ok ⟨trigger_type, .http address none none⟩))
  else if trigger_type = REDIS_TRIGGER_TYPE then
    try_build (tenv.build_trigger trigger_type) (.ok ⟨trigger_type, .noArgs⟩)
  else if trigger_type = SQS_TRIGGER_TYPE then
    try_build (tenv.build_trigger trigger_type) (.ok ⟨trigger_type, .noArgs⟩)
  else if trigger_type = COMMAND_TRIGGER_TYPE then
    try_build (tenv.build_trigger trigger_type)
      (.ok ⟨trigger_type, .command tenv.ctx_args⟩)
  else if trigger_type = MQTT_TRIGGER_TYPE then
    try_build (tenv.build_trigger trigger_type) (.ok ⟨trigger_type, .mqtt false⟩)
  else
    .unreachable

/-- Result of the whole construction loop of run_trigger. -/
inductive BuildListOutcome where
  | ok (fs : List TriggerFuture)
  | error (msg : String)
  | unreachable
deriving DecidableEq, Repr

/-- The construction loop of run_trigger (engine.rs lines 153-205): one
future per trigger kind, in order, aborting on the first builder error or
unreachable panic. -/
def run_trigger_build (tenv : TriggerEnv) : List String → BuildListOutcome
  | [] => .ok []
  | t :: ts =>
    match build_trigger_future tenv t with
    | .error e => .error e
    | .unreachable => .unreachable
    | .ok f =>
      match run_trigger_build tenv ts with
      | .error e => .error e
      | .unreachable => .unreachable
      | .ok fs => .ok (f :: fs)

lemma try_build_ne_unreachable {b : Except String Unit} {f : BuildOutcome}
    (hf : f ≠ .unreachable) : try_build b f ≠ .unreachable := by
  cases b with
  | error e => simp [try_build]
  | ok u => simpa [try_build] using hf

lemma try_parse_ne_unreachable {r : Except String Addr} {f : Addr → BuildOutcome}
    (hf : ∀ a, f a ≠ .unreachable) : try_parse r f ≠ .unreachable := by
  cases r with
  | error e => simp [try_parse]
  | ok a => simpa [try_parse] using hf a

lemma build_trigger_future_ne_unreachable (tenv : TriggerEnv) {k : String}
    (hk : k ∈ supported_trigger_types) :
    build_trigger_future tenv k ≠ .unreachable := by
  simp only [supported_trigger_types, List.mem_cons, List.not_mem_nil, or_false] at hk
  rcases hk with rfl | rfl | rfl | rfl | rfl
  · rw [build_trigger_future, if_pos rfl]
    exact try_build_ne_unreachable
      (try_parse_ne_unreachable (fun a => by simp))
  · rw [build_trigger_future, if_neg (by decide), if_pos rfl]
    exact try_build_ne_unreachable (by simp)
  · rw [build_trigger_future, if_neg (by decide), if_neg (by decide), if_pos rfl]
    exact try_build_ne_unreachable (by simp)
  · rw [build_trigger_future, if_neg (by decide), if_neg (by decide),
      if_neg (by decide), if_pos rfl]
    exact try_build_ne_unreachable (by simp)
  · rw [build_trigger_future, if_neg (by decide), if_neg (by decide),
      if_neg (by decide), if_neg (by decide), if_pos rfl]
    exact try_build_ne_unreachable (by simp)

lemma run_trigger_build_ne_unreachable {tenv : TriggerEnv} {K : List String}
    (h : ∀ k ∈ K, build_trigger_future tenv k ≠ .unreachable) :
    run_trigger_build tenv K ≠ .unreachable := by
  induction K with
  | nil => simp [run_trigger_build]
  | cons t ts ih =>
    intro hcon
    rw [run_trigger_build] at hcon
    cases hb : build_trigger_future tenv t with
    | error e => simp [hb] at hcon
    | unreachable => exact h t (by simp) hb
    | ok f =>
      simp only [hb] at hcon
      cases hr : run_trigger_build tenv ts with
      | error e => simp [hr] at hcon
      | unreachable => exact ih (fun k hk => h k (by simp [hk])) hr
      | ok fs => simp [hr] at hcon

lemma run_trigger_build_ok {tenv : TriggerEnv} {K : List String}
    {fs : List TriggerFuture} (h : run_trigger_build tenv K = .ok fs) :
    fs.length = K.length ∧
    ∀ (i : Nat) (f : TriggerFuture), fs[i]? = some f →
      ∃ k, K[i]? = some k ∧ build_trigger_future tenv k = .ok f := by
  induction K generalizing fs with
  | nil =>
    rw [run_trigger_build] at h
    cases h
    exact ⟨rfl, by intro i f hf; simp at hf⟩
  | cons t ts ih =>
    rw [run_trigger_build] at h
    cases hb : build_trigger_future tenv t with
    | error e => simp [hb] at h
    | unreachable => simp [hb] at h
    | ok f0 =>
      simp only [hb] at h
      cases hr : run_trigger_build tenv ts with
      | error e => simp [hr] at h
      | unreachable => simp [hr] at h
      | ok fs2 =>
        simp only [hr] at h
        cases h
        obtain ⟨hlen, hget⟩ := ih hr
        refine ⟨by simp [hlen], ?_⟩
        intro i f hf
        cases i with
        | zero =>
          simp at hf
          exact ⟨t, by simp, hf ▸ hb⟩
        | succ i =>
          simp at hf ⊢
          exact hget i f hf

lemma get_supported_triggers_ok_mem {app : LockedApp} {K : List String}
    (h : get_supported_triggers app = .ok K) :
    ∀ k ∈ K, k ∈ supported_trigger_types := by
  rw [get_supported_triggers] at h
  cases hf : ((app.triggers.map LockedTrigger.trigger_type).dedup).find?
      (fun k => !(supported_trigger_types.contains k)) with
  | some k => rw [hf] at h; exact absurd h (by simp)
  | none =>
    rw [hf] at h
    by_cases he : ((app.triggers.map LockedTrigger.trigger_type).dedup).isEmpty
    · rw [if_pos he] at h; exact absurd h (by simp)
    · rw [if_neg he] at h
      cases h
      intro k hk
      have := List.find?_eq_none.mp hf k hk
      simpa using this

lemma get_supported_triggers_unsupported {app : LockedApp} {k : String}
    (hk : k ∈ app.triggers.map LockedTrigger.trigger_type)
    (hns : k ∉ supported_trigger_types) :
    ∃ msg, get_supported_triggers app = .error msg := by
  rw [get_supported_triggers]
  cases hf : ((app.triggers.map LockedTrigger.trigger_type).dedup).find?
      (fun k => !(supported_trigger_types.contains k)) with
  | some k2 => exact ⟨_, rfl⟩
  | none =>
    exfalso
    have hmem : k ∈ (app.triggers.map LockedTrigger.trigger_type).dedup :=
      List.mem_dedup.mpr hk
    have hcon := List.find?_eq_none.mp hf k hmem
    simp at hcon
    exact hns hcon

/-- C5: given the validated kind set K of a locked app, the construction
loop of the supervisor builds exactly one executor future per kind of K, in
order, and its unreachable branch is never taken; a kind outside the
supported set makes validation return an error instead, so no executor is
launched for it. -/
theorem run_trigger_executor_per_kind (app : LockedApp) (K : List String)
    (tenv : TriggerEnv) :
    (get_supported_triggers app = .ok K →
      run_trigger_build tenv K ≠ .unreachable ∧
      ∀ fs, run_trigger_build tenv K = .ok fs →
        fs.length = K.length ∧
        ∀ (i : Nat) (f : TriggerFuture), fs[i]? = some f →
          ∃ k, K[i]? = some k ∧ build_trigger_future tenv k = .ok f) ∧
    (∀ k ∈ app.triggers.map LockedTrigger.trigger_type,
      k ∉ supported_trigger_types →
        ∃ msg, get_supported_triggers app = .error msg) := by
  constructor
  · intro hK
    refine ⟨run_trigger_build_ne_unreachable
      (fun k hk => build_trigger_future_ne_unreachable tenv
        (get_supported_triggers_ok_mem hK k hk)), ?_⟩
    intro fs hfs
    exact run_trigger_build_ok hfs
  · intro k hk hns
    exact get_supported_triggers_unsupported hk hns

/-- A locked app declaring one HTTP and one Command trigger. -/
def test_app : LockedApp := ⟨[⟨HTTP_TRIGGER_TYPE⟩, ⟨COMMAND_TRIGGER_TYPE⟩]⟩

/-- A locked app declaring an unsupported trigger kind. -/
def test_app_bad : LockedApp := ⟨[⟨"timer"⟩]⟩

/-- A trigger environment whose builders succeed, with no listen-address
override set. -/
def test_trigger_env : TriggerEnv := ⟨fun _ => .ok (), none, ["arg1"]⟩

/-- A trigger environment whose builders succeed, with the listen-address
override set. -/
def test_trigger_env_set : TriggerEnv := ⟨fun _ => .ok (), some "127.0.0.1:8080", []⟩

/-- Witness for C5: two supported kinds build two futures and never panic;
an unsupported kind fails validation. -/
theorem run_trigger_executor_per_kind_witness :
    run_trigger_build test_trigger_env [HTTP_TRIGGER_TYPE, COMMAND_TRIGGER_TYPE] ≠
      BuildListOutcome.unreachable ∧
    ([⟨HTTP_TRIGGER_TYPE, .http ⟨"0.0.0.0", 80⟩ none none⟩,
      ⟨COMMAND_TRIGGER_TYPE, .command ["arg1"]⟩] : List TriggerFuture).length = 2 ∧
    ∃ msg, get_supported_triggers test_app_bad = .error msg := by
  have h1 := (run_trigger_executor_per_kind test_app
    [HTTP_TRIGGER_TYPE, COMMAND_TRIGGER_TYPE] test_trigger_env).1 (by rfl)
  have h2 := (run_trigger_executor_per_kind test_app_bad [] test_trigger_env).2
    "timer" (by decide) (by decide)
  have h3 := (h1.2 [⟨HTTP_TRIGGER_TYPE, .http ⟨"0.0.0.0", 80⟩ none none⟩,
    ⟨COMMAND_TRIGGER_TYPE, .command ["arg1"]⟩] (by rfl)).1
  exact ⟨h1.1, h3, h2⟩

/-- C7: for the HTTP kind, the listen address is the SPIN_HTTP_LISTEN_ADDR
environment value when set and the default 0.0.0.0:80 otherwise, parsed as
host:port, and the TLS certificate and key are always unset. -/
theorem http_trigger_listen_addr (tenv : TriggerEnv)
    (hb : tenv.build_trigger HTTP_TRIGGER_TYPE = .ok ()) :
    (∀ s a, tenv.env_listen_addr = some s → parse_addr s = .ok a →
      build_trigger_future tenv HTTP_TRIGGER_TYPE =
        .ok ⟨HTTP_TRIGGER_TYPE, .http a none none⟩) ∧
    (tenv.env_listen_addr = none →
      build_trigger_future tenv HTTP_TRIGGER_TYPE =
        .ok ⟨HTTP_TRIGGER_TYPE, .http ⟨"0.0.0.0", 80⟩ none none⟩) := by
  constructor
  · intro s a hs hp
    rw [build_trigger_future, if_pos rfl, hb, hs]
    simp only [Option.getD_some]
    rw [hp]
    rfl
  · intro hs
    rw [build_trigger_future, if_pos rfl, hb, hs]
    rfl

/-- Witness for C7: with the override set to 127.0.0.1:8080 the parsed
override is used; with no override the default applies; TLS is unset in
both. -/
theorem http_trigger_listen_addr_witness :
    build_trigger_future test_trigger_env_set HTTP_TRIGGER_TYPE =
      .ok ⟨HTTP_TRIGGER_TYPE, .http ⟨"127.0.0.1", 8080⟩ none none⟩ ∧
    build_trigger_future test_trigger_env HTTP_TRIGGER_TYPE =
      .ok ⟨HTTP_TRIGGER_TYPE, .http ⟨"0.0.0.0", 80⟩ none none⟩ := by
  exact ⟨(http_trigger_listen_addr test_trigger_env_set rfl).1 "127.0.0.1:8080"
      ⟨"127.0.0.1", 8080⟩ rfl (by rfl),
    (http_trigger_listen_addr test_trigger_env rfl).2 rfl⟩

/-- Modelled from the spec: a trigger run task under the cooperative
runtime, denoted by its completion time and its outcome. Concurrency is
modelled denotationally: all tasks run together and each would finish at
its completion time. -/
structure TaskModel where
  time : Nat
  result : Except String Unit

/-- Index of the earliest minimum of a list of completion times (the lowest
index on ties, matching the poll order of the futures list). -/
def first_min_index : List Nat → Option Nat
  | [] => none
  | t :: ts =>
    match first_min_index ts with
    | none => some 0
    | some j =>
      match ts[j]? with
      | none => some 0
      | some tj => if t ≤ tj then some 0 else some (j + 1)

/-- Modelled from the spec: futures::future::select_all under the
completion-time model — resolves to the value of the first task to finish,
its index, and the list of remaining tasks. -/
def select_all (tasks : List TaskModel) :
    Option (Except String Unit × Nat × List TaskModel) :=
  match first_min_index (tasks.map TaskModel.time) with
  | none => none
  | some i =>
    match tasks[i]? with
    | none => none
    | some t => some (t.result, i, tasks.eraseIdx i)

/-- The supervision tail of run_trigger (engine.rs lines 207-217): await
select_all over the futures, look up the winning kind in the type map for
logging, drop the remaining tasks, and return the winning outcome. -/
def run_trigger_supervise (tasks : List TaskModel)
    (trigger_type_map : List String) : Option (Except String Unit × String) :=
  match select_all tasks with
  | none => none
  | some (result, index, _rest) =>
    match trigger_type_map[index]? with
    | none => none
    | some trigger_type => some (result, trigger_type)

lemma first_min_index_lt {l : List Nat} {j : Nat}
    (h : first_min_index l = some j) : j < l.length := by
  induction l generalizing j with
  | nil => simp [first_min_index] at h
  | cons t ts ih =>
    rw [first_min_index] at h
    cases hf : first_min_index ts with
    | none =>
      simp only [hf] at h
      cases h
      simp
    | some j2 =>
      have hj2 := ih hf
      cases hts : ts[j2]? with
      | none =>
        simp only [hf, hts] at h
        cases h
        simp
      | some tj =>
        simp only [hf, hts] at h
        by_cases hle : t ≤ tj
        · rw [if_pos hle] at h; cases h; simp
        · rw [if_neg hle] at h; cases h; simpa using Nat.succ_lt_succ hj2

lemma first_min_index_spec (l : List Nat) (i : Nat) (hi : i < l.length)
    (hmin : ∀ (j : Nat) (hj : j < l.length), l[i] ≤ l[j])
    (hfirst : ∀ (j : Nat) (hj : j < i), l[i] < l[j]) :
    first_min_index l = some i := by
  induction l generalizing i with
  | nil => exact absurd hi (Nat.not_lt_zero i)
  | cons t ts ih =>
    cases i with
    | zero =>
      rw [first_min_index]
      cases hf : first_min_index ts with
      | none => rfl
      | some j =>
        have hj : j < ts.length := first_min_index_lt hf
        have hts : ts[j]? = some ts[j] := List.getElem?_eq_getElem hj
        have hle : t ≤ ts[j] := by
          have := hmin (j + 1) (Nat.succ_lt_succ hj)
          simpa using this
        simp only [hf, hts]
        rw [if_pos hle]
    | succ i =>
      have hi2 : i < ts.length := Nat.lt_of_succ_lt_succ hi
      have hrec : first_min_index ts = some i := by
        apply ih i hi2
        · intro j hj
          have := hmin (j + 1) (Nat.succ_lt_succ hj)
          simpa using this
        · intro j hj
          have := hfirst (j + 1) (Nat.succ_lt_succ hj)
          simpa using this
      have hts : ts[i]? = some ts[i] := List.getElem?_eq_getElem hi2
      have hlt : ts[i] < t := by
        have := hfirst 0 (Nat.succ_pos i)
        simpa using this
      rw [first_min_index]
      simp only [hrec, hts]
      rw [if_neg (Nat.not_le.mpr hlt)]

/-- C4: the supervisor resolves to the outcome of the first task to
complete — whether it completed with ok or with an error — paired with its
kind label from the type map, and the remaining tasks are dropped (select
returns them removed from the set, one fewer than the input). -/
theorem run_trigger_first_completion (tasks : List TaskModel)
    (types : List String) (i : Nat) (hi : i < tasks.length)
    (hlen : types.length = tasks.length)
    (hmin : ∀ (j : Nat) (hj : j < tasks.length), tasks[i].time ≤ tasks[j].time)
    (hfirst : ∀ (j : Nat) (hj : j < i), tasks[i].time < tasks[j].time) :
    run_trigger_supervise tasks types = some (tasks[i].result, types[i]) ∧
    ∃ rest, select_all tasks = some (tasks[i].result, i, rest) ∧
      rest.length = tasks.length - 1 := by
  have hmap : first_min_index (tasks.map TaskModel.time) = some i := by
    apply first_min_index_spec _ i (by simpa using hi)
    · intro j hj
      rw [List.length_map] at hj
      simp only [List.getElem_map]
      exact hmin j hj
    · intro j hj
      simp only [List.getElem_map]
      exact hfirst j hj
  have htasks : tasks[i]? = some tasks[i] := List.getElem?_eq_getElem hi
  have hsel : select_all tasks = some (tasks[i].result, i, tasks.eraseIdx i) := by
    rw [select_all]
    simp only [hmap, htasks]
  have htypes : types[i]? = some types[i] :=
    List.getElem?_eq_getElem (show i < types.length by omega)
  constructor
  · rw [run_trigger_supervise]
    simp only [hsel, htypes]
  · exact ⟨tasks.eraseIdx i, hsel, by rw [List.length_eraseIdx]; simp [hi]⟩

/-- Concrete task set used by the C4 witness: the middle task finishes
first, successfully. -/
def test_tasks : List TaskModel :=
  [⟨5, .error "first"⟩, ⟨3, .ok ()⟩, ⟨9, .error "slow"⟩]

/-- Kind labels matching test_tasks positionally. -/
def test_type_map : List String :=
  [HTTP_TRIGGER_TYPE, COMMAND_TRIGGER_TYPE, REDIS_TRIGGER_TYPE]

/-- Witness for C4: of three tasks the one with the earliest completion
time wins, its kind label is reported, and two tasks remain to drop. -/
theorem run_trigger_first_completion_witness :
    run_trigger_supervise test_tasks test_type_map =
      some (Except.ok (), COMMAND_TRIGGER_TYPE) ∧
    ∃ rest, select_all test_tasks = some (Except.ok (), 1, rest) ∧
      rest.length = 2 := by
  have h := run_trigger_first_completion test_tasks test_type_map 1
    (by simp [test_tasks])
    (by simp [test_tasks, test_type_map])
    (by
      intro j hj
      simp only [test_tasks, List.length_cons, List.length_nil] at hj
      interval_cases j <;> simp [test_tasks])
    (by
      intro j hj
      interval_cases j
      simp [test_tasks])
  refine ⟨?_, ?_⟩
  · have h1 := h.1
    simpa [test_tasks, test_type_map] using h1
  · have h2 := h.2
    simpa [test_tasks] using h2
